import Mathlib

/-!
Shallow embedding of the `CosmostationClient` wallet adapter
(cosmos-kit `@cosmos-kit/cosmostation-extension`).

The adapter translates abstract wallet operations (`connect`, `getAccounts`,
`sign`, `verify`, `on`/`off` event bridging) into native wallet transport
requests.  The native transport is modelled as a structure of total response
functions (`Cosmostation`), and each operation returns the ordered list of
native calls it issues together with an `Except`-typed outcome, mirroring
the promise-rejection strings of the source.
-/

namespace CosmosKit

/-- Shape tag of a structured (non-string) signing document.  The source
sniffs document shapes with `isCosmosDirectDoc` / `isEthTransactionDoc`. -/
inductive DocShape where
  | cosmosDirect
  | ethTransaction
  | other
deriving DecidableEq

/-- A structured (non-string) signing document: its recognized shape plus an
opaque payload. -/
structure StructuredDoc where
  shape : DocShape
  payload : String
deriving DecidableEq

/-- A signing document: either a plain string message or a structured doc
(the source's `doc: unknown` discriminated by `typeof doc === 'string'`). -/
inductive Doc where
  | str (s : String)
  | structured (d : StructuredDoc)
deriving DecidableEq

/-- Whether a document is a string message. -/
def Doc.isStr : Doc → Bool
  | .str _ => true
  | .structured _ => false

/-- Modelled from the spec: `isCosmosDirectDoc` comes from the package
`@cosmos-kit/cosmos`, whose source is not under src/; per the spec, a
structured Cosmos doc "triggers sign amino or sign direct based on the
document's shape", so this predicate recognizes exactly the direct shape. -/
def isCosmosDirectDoc (d : StructuredDoc) : Bool :=
  match d.shape with
  | .cosmosDirect => true
  | _ => false

/-- Modelled from the spec: `isEthTransactionDoc` comes from the package
`@cosmos-kit/ethereum`, whose source is not under src/; it recognizes "a
recognized transaction-shaped document" for the Ethereum signing flow. -/
def isEthTransactionDoc (d : StructuredDoc) : Bool :=
  match d.shape with
  | .ethTransaction => true
  | _ => false

/-- A public key as returned by the Cosmostation native responses
(`pub_key: { type, value }`). -/
structure PubKey where
  type : String
  value : String
deriving DecidableEq

/-- The raw signature wrapper of the contract's `Signature` result
(`signature: { value }`). -/
structure SigValue where
  value : String
deriving DecidableEq

/-- The contract's normalized `Signature` result: optional public key, the
raw signature value, and the document that was actually signed. -/
structure Signature where
  publicKey : Option PubKey
  signature : SigValue
  signedDoc : Doc
deriving DecidableEq

/-- An encoded string with its encoding label
(`{ value, encoding }`, e.g. bech32 addresses, hex public keys). -/
structure Encoded where
  value : String
  encoding : String
deriving DecidableEq

/-- The contract's normalized `WalletAccount`.  `ns` is the source's
`namespace` field (a Lean keyword). -/
structure WalletAccount where
  ns : String
  chainId : Option String
  username : Option String
  address : Encoded
  publicKey : Option Encoded
  algo : Option String
deriving DecidableEq

/-- One `authRange` entry: the optional chain-id list for a namespace. -/
structure AuthEntry where
  chainIds : Option (List String)
deriving DecidableEq

/-- An `AuthRange` is a JS object mapping namespace names to entries;
modelled as an association list in key order (`Object.entries`). -/
abbrev AuthRange := List (String × AuthEntry)

/-- Response of the native `cos_requestAccount` request. -/
structure RequestAccountResponse where
  name : String
  address : String
  publicKey : List Nat
  isLedger : Bool
  algo : String
deriving DecidableEq

/-- Response of the native `cos_signMessage` request. -/
structure SignMessageResponse where
  pub_key : PubKey
  signature : String
deriving DecidableEq

/-- Response of the native `cos_signDirect` / `cos_signAmino` requests:
the wallet returns the document it actually signed in `signed_doc`. -/
structure SignDocResponse where
  pub_key : PubKey
  signature : String
  signed_doc : StructuredDoc
deriving DecidableEq

/-- Sign options forwarded to the wallet (`options?.memo`, `options?.fee`,
`options?.gasRate` in the source). -/
structure SignOptions where
  memo : Option Bool
  fee : Option Bool
  gasRate : Option String
deriving DecidableEq

/-- Parameters of a native `cos_signDirect` / `cos_signAmino` request. -/
structure SignDocParams where
  chainName : String
  doc : StructuredDoc
  isEditMemo : Bool
  isEditFee : Bool
  gasRate : Option String
deriving DecidableEq

/-- Parameters of a native `cos_verifyMessage` request. -/
structure VerifyParams where
  chainName : String
  signer : String
  message : String
  publicKey : String
  signatureValue : String
deriving DecidableEq

/-- One native wallet request issued by the adapter, with its parameters. -/
inductive NativeCall where
  | cosRequestAccount (chainName : String)
  | cosSignMessage (chainName signer message : String)
  | cosSignDirect (p : SignDocParams)
  | cosSignAmino (p : SignDocParams)
  | cosVerifyMessage (p : VerifyParams)
  | cosDisconnect
  | ethRequestAccounts
  | ethSign (signer message : String)
  | ethSignTransaction (signer : String) (d : StructuredDoc)
  | ethSignTypedData (signer : String) (d : StructuredDoc)
  | aptosConnect
  | aptosAccount
  | suiConnect
  | suiGetAccounts
  | suiGetPublicKey
deriving DecidableEq

/-- Whether a native call goes to the cosmos entry point of the wallet. -/
def NativeCall.isCosmosCall : NativeCall → Bool
  | .cosRequestAccount _ => true
  | .cosSignMessage _ _ _ => true
  | .cosSignDirect _ => true
  | .cosSignAmino _ => true
  | .cosVerifyMessage _ => true
  | .cosDisconnect => true
  | _ => false

/-- Whether a normalized account belongs to the cosmos namespace. -/
def isCosmosAcct (a : WalletAccount) : Bool := a.ns == "cosmos"

/-- The native Cosmostation wallet transport, modelled as total response
functions for each native method the adapter uses, plus the outcomes of the
response-less connect requests. -/
structure Cosmostation where
  cosRequestAccount : String → RequestAccountResponse
  cosSignMessage : String → String → String → SignMessageResponse
  cosSignDirect : SignDocParams → SignDocResponse
  cosSignAmino : SignDocParams → SignDocResponse
  cosVerifyMessage : VerifyParams → Bool
  aptosConnect : Except String Unit
  suiConnect : Except String Unit
  ethRequestAccounts : List String
  ethSign : String → String → String
  ethSignTransaction : String → StructuredDoc → String
  ethSignTypedData : String → StructuredDoc → String
  aptosAccount : String × String
  suiGetAccounts : List String
  suiGetPublicKey : String

/-- Truthiness of the optional `chainId` argument: the source's `!chainId`
is true for `undefined` and for the empty string. -/
def strFalsy : Option String → Bool
  | none => true
  | some s => s.isEmpty

/-- Truthiness of an optional boolean (`!!(options?.flag)`). -/
def truthy (b : Option Bool) : Bool := b.getD false

/-- Whether an `Except` outcome is a resolved (non-rejected) one. -/
def exOk {ε α : Type} : Except ε α → Bool
  | .ok _ => true
  | .error _ => false

/-- Hex digit character for a value below 16. -/
def hexDigit (n : Nat) : Char :=
  if n < 10 then Char.ofNat (48 + n) else Char.ofNat (87 + n)

/-- Modelled from the spec: `getStringFromUint8Array(_, 'hex')` comes from
`@cosmos-kit/core`, whose source is not under src/; per the spec's account
invariant the public key is hex-encoded, so this hex-encodes the bytes. -/
def getStringFromUint8Array (bs : List Nat) : String :=
  String.join (bs.map (fun b => String.mk [hexDigit (b / 16 % 16), hexDigit (b % 16)]))

/-- Normalization of one native `cos_requestAccount` response into a
`WalletAccount`, as in the cosmos branch of `getAccounts`. -/
def cosmosWalletAccount (tr : Cosmostation) (chainId : String) : WalletAccount :=
  let key := tr.cosRequestAccount chainId
  { ns := "cosmos"
    chainId := some chainId
    username := some key.name
    address := { value := key.address, encoding := "bech32" }
    publicKey := some { value := getStringFromUint8Array key.publicKey, encoding := "hex" }
    algo := some key.algo }

/-- Normalization of one Ethereum address into a `WalletAccount`, as in the
ethereum branch of `getAccounts`. -/
def ethWalletAccount (address : String) : WalletAccount :=
  { ns := "ethereum", chainId := none, username := none
    address := { value := address, encoding := "hex" }
    publicKey := none, algo := none }

/-- Normalization of the Aptos account response into a `WalletAccount`. -/
def aptosWalletAccount (tr : Cosmostation) : WalletAccount :=
  { ns := "aptos", chainId := none, username := none
    address := { value := tr.aptosAccount.1, encoding := "hex" }
    publicKey := some { value := tr.aptosAccount.2, encoding := "hex" }
    algo := none }

/-- Normalization of one Sui address (with the shared Sui public key) into a
`WalletAccount`. -/
def suiWalletAccount (tr : Cosmostation) (address : String) : WalletAccount :=
  { ns := "sui", chainId := none, username := none
    address := { value := address, encoding := "hex" }
    publicKey := some { value := tr.suiGetPublicKey, encoding := "hex" }
    algo := none }

/-- One namespace branch of `connect` (the `switch (namespace)` body):
aptos and sui issue their native connect request, every other namespace
rejects with `'Unmatched namespace.'`. -/
def connectBranch (tr : Cosmostation) (p : String × AuthEntry) :
    List NativeCall × Except String Unit :=
  if p.1 = "aptos" then ([.aptosConnect], tr.aptosConnect)
  else if p.1 = "sui" then ([.suiConnect], tr.suiConnect)
  else ([], .error "Unmatched namespace.")

/-- Sequencing of two branch outcomes under `Promise.all`: the first
rejection (in entry order) wins, otherwise the call resolves. -/
def combineUnit : Except String Unit → Except String Unit → Except String Unit
  | .error e, _ => .error e
  | .ok _, r => r

/-- `connect(authRange)`: every namespace branch runs (all native calls are
issued) and the call resolves only if every branch resolved. -/
def connectRun (tr : Cosmostation) : AuthRange → List NativeCall × Except String Unit
  | [] => ([], .ok ())
  | p :: rest =>
    let b := connectBranch tr p
    let r := connectRun tr rest
    (b.1 ++ r.1, combineUnit b.2 r.2)

/-- The adapter's `connect`. -/
def connect (tr : Cosmostation) (authRange : AuthRange) :
    List NativeCall × Except String Unit :=
  connectRun tr authRange

/-- One namespace branch of `getAccounts`: cosmos requires explicit chain
ids and issues one `cos_requestAccount` per chain id; ethereum, aptos and
sui issue their account-listing calls; other namespaces reject. -/
def getAccountsBranch (tr : Cosmostation) (p : String × AuthEntry) :
    List NativeCall × Except String (List WalletAccount) :=
  if p.1 = "cosmos" then
    match p.2.chainIds with
    | none => ([], .error "No chainIds provided.")
    | some cids =>
      (cids.map (fun cid => NativeCall.cosRequestAccount cid),
       .ok (cids.map (cosmosWalletAccount tr)))
  else if p.1 = "ethereum" then
    ([.ethRequestAccounts], .ok (tr.ethRequestAccounts.map ethWalletAccount))
  else if p.1 = "aptos" then
    ([.aptosAccount], .ok [aptosWalletAccount tr])
  else if p.1 = "sui" then
    ([.suiGetAccounts, .suiGetPublicKey],
     .ok (tr.suiGetAccounts.map (suiWalletAccount tr)))
  else ([], .error "Unmatched namespace.")

/-- Sequencing of two account-branch outcomes under `Promise.all`: the
first rejection (in entry order) wins, otherwise results are flattened in
entry order. -/
def combineAcc : Except String (List WalletAccount) →
    Except String (List WalletAccount) → Except String (List WalletAccount)
  | .error e, _ => .error e
  | .ok xs, .ok ys => .ok (xs ++ ys)
  | .ok _, .error e => .error e

/-- `getAccounts(authRange)`: all namespace branches run, results are
flattened in entry order, and any branch rejection rejects the whole call. -/
def getAccountsRun (tr : Cosmostation) :
    AuthRange → List NativeCall × Except String (List WalletAccount)
  | [] => ([], .ok [])
  | p :: rest =>
    let b := getAccountsBranch tr p
    let r := getAccountsRun tr rest
    (b.1 ++ r.1, combineAcc b.2 r.2)

/-- The adapter's `getAccounts`. -/
def getAccounts (tr : Cosmostation) (authRange : AuthRange) :
    List NativeCall × Except String (List WalletAccount) :=
  getAccountsRun tr authRange

/-- The native sign-doc request parameters built by the structured-doc arm
of the cosmos `sign` branch. -/
def signDocParams (chainName : String) (d : StructuredDoc)
    (options : Option SignOptions) : SignDocParams :=
  { chainName := chainName
    doc := d
    isEditMemo := truthy (options.bind SignOptions.memo)
    isEditFee := truthy (options.bind SignOptions.fee)
    gasRate := options.bind SignOptions.gasRate }

/-- The adapter's `sign(namespace, doc, signerAddress, chainId?, options?)`.
The cosmos branch rejects when `chainId` is falsy, signs string messages
with `cos_signMessage` (echoing the input string as `signedDoc`), and signs
structured docs with `cos_signDirect` or `cos_signAmino` according to
`isCosmosDirectDoc`, returning the response's `signed_doc`.  The ethereum
branch picks `eth_sign`, `eth_signTransaction` or `eth_signTypedData_v4`
by document shape.  Other namespaces reject. -/
def sign (tr : Cosmostation) (ns : String) (doc : Doc) (signerAddress : String)
    (chainId : Option String) (options : Option SignOptions) :
    List NativeCall × Except String Signature :=
  if ns = "cosmos" then
    if strFalsy chainId then ([], .error "ChainId not provided.")
    else
      let c := chainId.getD ""
      match doc with
      | .str m =>
        let resp := tr.cosSignMessage c signerAddress m
        ([.cosSignMessage c signerAddress m],
         .ok { publicKey := some resp.pub_key
               signature := { value := resp.signature }
               signedDoc := .str m })
      | .structured d =>
        let p := signDocParams c d options
        if isCosmosDirectDoc d then
          let resp := tr.cosSignDirect p
          ([.cosSignDirect p],
           .ok { publicKey := some resp.pub_key
                 signature := { value := resp.signature }
                 signedDoc := .structured resp.signed_doc })
        else
          let resp := tr.cosSignAmino p
          ([.cosSignAmino p],
           .ok { publicKey := some resp.pub_key
                 signature := { value := resp.signature }
                 signedDoc := .structured resp.signed_doc })
  else if ns = "ethereum" then
    match doc with
    | .str m =>
      ([.ethSign signerAddress m],
       .ok { publicKey := none
             signature := { value := tr.ethSign signerAddress m }
             signedDoc := .str m })
    | .structured d =>
      if isEthTransactionDoc d then
        ([.ethSignTransaction signerAddress d],
         .ok { publicKey := none
               signature := { value := tr.ethSignTransaction signerAddress d }
               signedDoc := .structured d })
      else
        ([.ethSignTypedData signerAddress d],
         .ok { publicKey := none
               signature := { value := tr.ethSignTypedData signerAddress d }
               signedDoc := .structured d })
  else ([], .error "Unmatched namespace.")

/-- The adapter's `verify(namespace, doc, signature, signerAddress,
chainId?)`.  Only the cosmos branch exists: it first rejects on a falsy
`chainId`, then—only for string docs—issues `cos_verifyMessage`; structured
docs reject with `'Only support message string verification.'`.  Accessing
`signature.publicKey.value` on a signature without a public key throws.
Any other namespace rejects with `'Unmatched namespace.'`. -/
def verify (tr : Cosmostation) (ns : String) (doc : Doc) (signature : Signature)
    (signerAddress : String) (chainId : Option String) :
    List NativeCall × Except String Bool :=
  if ns = "cosmos" then
    if strFalsy chainId then ([], .error "ChainId not provided.")
    else
      match doc with
      | .str m =>
        match signature.publicKey with
        | none => ([], .error "TypeError")
        | some pk =>
          let p : VerifyParams :=
            { chainName := chainId.getD ""
              signer := signerAddress
              message := m
              publicKey := pk.value
              signatureValue := signature.signature.value }
          ([.cosVerifyMessage p], .ok (tr.cosVerifyMessage p))
      | .structured _ =>
        ([], .error "Only support message string verification.")
  else ([], .error "Unmatched namespace.")

/-- Lookup in an association list (the model of a JS `Map`). -/
def alLookup {α β : Type} [DecidableEq α] : List (α × β) → α → Option β
  | [], _ => none
  | (k, v) :: rest, a => if k = a then some v else alLookup rest a

/-- `Map.set`: replace the value at an existing key in place, else append. -/
def alSet {α β : Type} [DecidableEq α] : List (α × β) → α → β → List (α × β)
  | [], a, b => [(a, b)]
  | (k, v) :: rest, a, b =>
    if k = a then (a, b) :: rest else (k, v) :: alSet rest a b

/-- The event bridge state: the source's
`eventMap: Map<string, Map<listener, Event>>` (listeners modelled as `Nat`
identities, native subscription handles as `Nat`), plus the counter from
which the native `cosmos.on` hands out fresh handles. -/
structure EventState where
  eventMap : List (String × List (Nat × Nat))
  nextHandle : Nat
deriving DecidableEq

/-- The empty event bridge of a fresh adapter. -/
def EventState.empty : EventState := { eventMap := [], nextHandle := 0 }

/-- The adapter's `on(type, listener)`: subscribe natively (obtaining a
fresh handle) and store the handle under `(type, listener)`, overwriting
any previous handle for that pair. -/
def EventState.on (s : EventState) (type : String) (listener : Nat) : EventState :=
  let event := s.nextHandle
  let typeEventMap := (alLookup s.eventMap type).getD []
  { eventMap := alSet s.eventMap type (alSet typeEventMap listener event)
    nextHandle := s.nextHandle + 1 }

/-- The stored native handle for `(type, listener)`, if any
(`this.eventMap.get(type)?.get(listener)`). -/
def EventState.lookup2 (s : EventState) (type : String) (listener : Nat) : Option Nat :=
  (alLookup s.eventMap type).bind (fun m => alLookup m listener)

/-- The adapter's `off(type, listener)`: if a handle is stored for the
pair, issue the native unsubscribe with it.  The source does not modify
`eventMap` here (the entry is not removed).  Returns the new state and the
handles passed to the native unsubscribe. -/
def EventState.off (s : EventState) (type : String) (listener : Nat) :
    EventState × List Nat :=
  match s.lookup2 type listener with
  | some event => (s, [event])
  | none => (s, [])

/-- An abstract event-bridge operation. -/
inductive EventOp where
  | onOp (type : String) (listener : Nat)
  | offOp (type : String) (listener : Nat)
deriving DecidableEq

/-- One event-bridge step: the next state and the handles passed to the
native unsubscribe during the step. -/
def stepEvent (s : EventState) : EventOp → EventState × List Nat
  | .onOp t l => (s.on t l, [])
  | .offOp t l => s.off t l

/-- Run a sequence of event-bridge operations, collecting every handle
passed to the native unsubscribe, in order. -/
def runEvents (s : EventState) : List EventOp → EventState × List Nat
  | [] => (s, [])
  | op :: rest =>
    let r := stepEvent s op
    let r' := runEvents r.1 rest
    (r'.1, r.2 ++ r'.2)

/-- Every handle stored in the event map was handed out before the current
counter value (boolean form, for concrete states). -/
def goodStateB (s : EventState) : Bool :=
  s.eventMap.all (fun p => p.2.all (fun q => q.2 < s.nextHandle))

/-- Every handle reachable by lookup was handed out before the current
counter value. -/
def goodL (s : EventState) : Prop :=
  ∀ ty l h, s.lookup2 ty l = some h → h < s.nextHandle

/-- No lookup in the event map yields the handle `h1`. -/
def avoidsL (s : EventState) (h1 : Nat) : Prop :=
  ∀ ty l, s.lookup2 ty l ≠ some h1

/-- A sample native transport with constant responses, used to instantiate
the theorems at concrete inputs. -/
def sampleTr : Cosmostation :=
  { cosRequestAccount := fun _ =>
      { name := "acct", address := "cosmos1xyz", publicKey := [1, 171],
        isLedger := false, algo := "secp256k1" }
    cosSignMessage := fun _ _ _ =>
      { pub_key := { type := "tendermint/PubKeySecp256k1", value := "pkv" },
        signature := "rawsig" }
    cosSignDirect := fun p =>
      { pub_key := { type := "t", value := "pk" }, signature := "sigd",
        signed_doc := { shape := p.doc.shape, payload := "wallet-edited" } }
    cosSignAmino := fun p =>
      { pub_key := { type := "t", value := "pk" }, signature := "siga",
        signed_doc := p.doc }
    cosVerifyMessage := fun _ => true
    aptosConnect := .ok ()
    suiConnect := .ok ()
    ethRequestAccounts := ["0xabc"]
    ethSign := fun _ _ => "esig"
    ethSignTransaction := fun _ _ => "etxsig"
    ethSignTypedData := fun _ _ => "etdsig"
    aptosAccount := ("0xaddr", "0xpub")
    suiGetAccounts := ["0xs1"]
    suiGetPublicKey := "0xsp" }

/-- A sample signature value for instantiating `verify`. -/
def sampleSig : Signature :=
  { publicKey := some { type := "t", value := "pk" }
    signature := { value := "sv" }
    signedDoc := .str "msg" }

/-- A sample structured document with the direct shape. -/
def sampleDirectDoc : StructuredDoc := { shape := .cosmosDirect, payload := "d" }

/-- A sample structured document without the direct shape. -/
def sampleAminoDoc : StructuredDoc := { shape := .other, payload := "a" }

/-- C7: for every doc and signer address, `sign("cosmos", doc, addr,
undefined)`—chainId omitted—fails with `MissingChainId`
(`'ChainId not provided.'`) before issuing any native wallet request. -/
theorem C7_sign_cosmos_missing_chainId (tr : Cosmostation) (doc : Doc)
    (addr : String) (opts : Option SignOptions) :
    sign tr "cosmos" doc addr none opts = ([], .error "ChainId not provided.") := by
  simp [sign, strFalsy]

/-- C9: for every doc (string or structured), signature and signer address,
`verify("cosmos", doc, signature, signerAddress, undefined)`—chainId
omitted—rejects with the missing-chain-id error uniformly in the doc's
shape and issues no native wallet request. -/
theorem C9_verify_cosmos_missing_chainId (tr : Cosmostation) (doc : Doc)
    (sig : Signature) (addr : String) :
    verify tr "cosmos" doc sig addr none = ([], .error "ChainId not provided.") := by
  simp [verify, strFalsy]

/-- C8: for every string doc, signer address and provided chainId,
`sign("cosmos", doc, addr, chainId)` issues exactly the native sign-message
call and returns a `Signature` whose `signedDoc` is exactly the input
string and whose `signature.value` equals the raw signature field of the
native sign-message response. -/
theorem C8_sign_cosmos_string (tr : Cosmostation) (m addr c : String)
    (opts : Option SignOptions) (hc : c.isEmpty = false) :
    (sign tr "cosmos" (.str m) addr (some c) opts).1 =
      [NativeCall.cosSignMessage c addr m] ∧
    ∃ s, (sign tr "cosmos" (.str m) addr (some c) opts).2 = .ok s ∧
      s.signedDoc = .str m ∧
      s.signature.value = (tr.cosSignMessage c addr m).signature := by
  refine ⟨by simp [sign, strFalsy, hc], ?_⟩
  refine ⟨{ publicKey := some (tr.cosSignMessage c addr m).pub_key,
            signature := { value := (tr.cosSignMessage c addr m).signature },
            signedDoc := .str m }, ?_, rfl, rfl⟩
  simp [sign, strFalsy, hc]

/-- Witness for C8 at concrete inputs. -/
theorem C8_witness :
    (sign sampleTr "cosmos" (.str "hello") "addr" (some "cosmoshub-4") none).1 =
      [NativeCall.cosSignMessage "cosmoshub-4" "addr" "hello"] ∧
    ∃ s, (sign sampleTr "cosmos" (.str "hello") "addr" (some "cosmoshub-4") none).2 = .ok s ∧
      s.signedDoc = .str "hello" ∧
      s.signature.value = (sampleTr.cosSignMessage "cosmoshub-4" "addr" "hello").signature :=
  C8_sign_cosmos_string sampleTr "hello" "addr" "cosmoshub-4" none (by decide)

/-- C5: for every structured cosmos doc and provided chainId, `sign`
selects the direct-sign native method exactly when the doc has the direct
shape (the amino one otherwise, never both), and the returned `Signature`'s
`signedDoc` equals the signed-document field of the native response. -/
theorem C5_sign_cosmos_structured (tr : Cosmostation) (d : StructuredDoc)
    (addr c : String) (opts : Option SignOptions) (hc : c.isEmpty = false) :
    ((NativeCall.cosSignDirect (signDocParams c d opts) ∈
        (sign tr "cosmos" (.structured d) addr (some c) opts).1) ↔
      isCosmosDirectDoc d = true) ∧
    ((NativeCall.cosSignAmino (signDocParams c d opts) ∈
        (sign tr "cosmos" (.structured d) addr (some c) opts).1) ↔
      isCosmosDirectDoc d = false) ∧
    ∃ s, (sign tr "cosmos" (.structured d) addr (some c) opts).2 = .ok s ∧
      s.signedDoc = .structured
        ((if isCosmosDirectDoc d then tr.cosSignDirect (signDocParams c d opts)
          else tr.cosSignAmino (signDocParams c d opts)).signed_doc) := by
  cases hdir : isCosmosDirectDoc d <;>
    simp [sign, strFalsy, hc, hdir]

/-- Witness for C5 at a concrete direct-shaped doc. -/
theorem C5_witness :
    ((NativeCall.cosSignDirect (signDocParams "cosmoshub-4" sampleDirectDoc none) ∈
        (sign sampleTr "cosmos" (.structured sampleDirectDoc) "addr" (some "cosmoshub-4") none).1) ↔
      isCosmosDirectDoc sampleDirectDoc = true) ∧
    ((NativeCall.cosSignAmino (signDocParams "cosmoshub-4" sampleDirectDoc none) ∈
        (sign sampleTr "cosmos" (.structured sampleDirectDoc) "addr" (some "cosmoshub-4") none).1) ↔
      isCosmosDirectDoc sampleDirectDoc = false) ∧
    ∃ s, (sign sampleTr "cosmos" (.structured sampleDirectDoc) "addr" (some "cosmoshub-4") none).2 = .ok s ∧
      s.signedDoc = .structured
        ((if isCosmosDirectDoc sampleDirectDoc then
            sampleTr.cosSignDirect (signDocParams "cosmoshub-4" sampleDirectDoc none)
          else sampleTr.cosSignAmino (signDocParams "cosmoshub-4" sampleDirectDoc none)).signed_doc) :=
  C5_sign_cosmos_structured sampleTr sampleDirectDoc "addr" "cosmoshub-4" none (by decide)

/-- C2 (amended): `verify` resolves only for namespace cosmos with a string
doc (and a truthy chainId); a non-cosmos namespace fails with
`UnsupportedNamespace` (`'Unmatched namespace.'`), while cosmos with a
non-string doc fails with `UnsupportedOperation`
(`'Only support message string verification.'`). -/
theorem C2_verify_amended (tr : Cosmostation) (ns : String) (doc : Doc)
    (sig : Signature) (addr : String) (cid : Option String) :
    (exOk (verify tr ns doc sig addr cid).2 = true →
      ns = "cosmos" ∧ strFalsy cid = false ∧ doc.isStr = true) ∧
    (ns ≠ "cosmos" →
      verify tr ns doc sig addr cid = ([], .error "Unmatched namespace.")) ∧
    (ns = "cosmos" → strFalsy cid = false → doc.isStr = false →
      verify tr ns doc sig addr cid =
        ([], .error "Only support message string verification.")) := by
  refine ⟨?_, ?_, ?_⟩
  · intro hok
    by_cases hns : ns = "cosmos"
    · subst hns
      refine ⟨rfl, ?_⟩
      cases hcid : strFalsy cid
      · cases doc with
        | str m =>
          exact ⟨rfl, rfl⟩
        | structured d =>
          simp [verify, hcid, exOk] at hok
      · simp [verify, hcid, exOk] at hok
    · simp [verify, hns, exOk] at hok
  · intro hns
    simp [verify, hns]
  · intro hns hcid hdoc
    subst hns
    cases doc with
    | str m => simp [Doc.isStr] at hdoc
    | structured d => simp [verify, hcid]

/-- Witness for C2's amended theorem at concrete inputs. -/
theorem C2_witness :
    (exOk (verify sampleTr "cosmos" (.structured sampleAminoDoc) sampleSig "addr" (some "chain-1")).2 = true →
      "cosmos" = "cosmos" ∧ strFalsy (some "chain-1") = false ∧
        (Doc.structured sampleAminoDoc).isStr = true) ∧
    ("cosmos" ≠ "cosmos" →
      verify sampleTr "cosmos" (.structured sampleAminoDoc) sampleSig "addr" (some "chain-1") =
        ([], .error "Unmatched namespace.")) ∧
    ("cosmos" = "cosmos" → strFalsy (some "chain-1") = false →
      (Doc.structured sampleAminoDoc).isStr = false →
      verify sampleTr "cosmos" (.structured sampleAminoDoc) sampleSig "addr" (some "chain-1") =
        ([], .error "Only support message string verification.")) :=
  C2_verify_amended sampleTr "cosmos" (.structured sampleAminoDoc) sampleSig "addr" (some "chain-1")

/-- C2 counterexample: there is no single error value with which every
non-(cosmos-with-string-doc) combination fails—a non-cosmos namespace and
a cosmos structured doc fail with two different errors, so the claim that
every such combination fails with `UnsupportedOperation` is false. -/
theorem C2_counterexample :
    ¬ ∃ e : String,
      (verify sampleTr "ethereum" (.str "msg") sampleSig "addr" (some "chain-1")).2 = .error e ∧
      (verify sampleTr "cosmos" (.structured sampleAminoDoc) sampleSig "addr" (some "chain-1")).2 = .error e := by
  rintro ⟨e, h1, h2⟩
  have v1 : (verify sampleTr "ethereum" (.str "msg") sampleSig "addr" (some "chain-1")).2 =
      .error "Unmatched namespace." := by simp [verify]
  have hne : "chain-1".isEmpty = false := rfl
  have v2 : (verify sampleTr "cosmos" (.structured sampleAminoDoc) sampleSig "addr" (some "chain-1")).2 =
      .error "Only support message string verification." := by simp [verify, strFalsy, hne]
  rw [v1] at h1
  rw [v2] at h2
  have e1 : "Unmatched namespace." = e := Except.error.inj h1
  have e2 : "Only support message string verification." = e := Except.error.inj h2
  rw [← e1] at e2
  exact absurd e2 (by decide)

/-- Sequencing two connect branches resolves exactly when both resolve. -/
theorem combineUnit_ok (a b : Except String Unit) :
    combineUnit a b = .ok () ↔ a = .ok () ∧ b = .ok () := by
  cases a with
  | error e => simp [combineUnit]
  | ok u => cases u; simp [combineUnit]

/-- `connect` resolves exactly when every namespace branch resolves. -/
theorem connectRun_ok_iff (tr : Cosmostation) (ar : AuthRange) :
    (connectRun tr ar).2 = .ok () ↔ ∀ p ∈ ar, (connectBranch tr p).2 = .ok () := by
  induction ar with
  | nil => simp [connectRun]
  | cons q rest ih =>
    simp [connectRun, combineUnit_ok, ih, List.forall_mem_cons]

/-- Every native call of a branch of `connect` is issued by the whole call. -/
theorem connect_calls_mem (tr : Cosmostation) (ar : AuthRange)
    (p : String × AuthEntry) (hp : p ∈ ar) (c : NativeCall)
    (hc : c ∈ (connectBranch tr p).1) : c ∈ (connectRun tr ar).1 := by
  induction ar with
  | nil => cases hp
  | cons q rest ih =>
    simp only [connectRun, List.mem_append]
    rcases List.mem_cons.mp hp with h | h
    · subst h; exact Or.inl hc
    · exact Or.inr (ih h)

/-- C4: `connect(authRange)` issues the wallet's native grant-permission
request for each bound namespace in the range, any namespace without a
defined binding fails with `UnsupportedNamespace`
(`'Unmatched namespace.'`), and the call resolves exactly when every
branch resolves—so whenever any single branch fails the whole call
rejects, and a successful branch never makes the call succeed. -/
theorem C4_connect_spec (tr : Cosmostation) (ar : AuthRange) :
    ((connect tr ar).2 = .ok () ↔ ∀ p ∈ ar, (connectBranch tr p).2 = .ok ()) ∧
    (∀ p ∈ ar, p.1 = "aptos" → NativeCall.aptosConnect ∈ (connect tr ar).1) ∧
    (∀ p ∈ ar, p.1 = "sui" → NativeCall.suiConnect ∈ (connect tr ar).1) ∧
    (∀ p ∈ ar, p.1 ≠ "aptos" → p.1 ≠ "sui" →
      (connectBranch tr p).2 = .error "Unmatched namespace." ∧
      (connect tr ar).2 ≠ .ok ()) := by
  refine ⟨connectRun_ok_iff tr ar, ?_, ?_, ?_⟩
  · intro p hp h1
    exact connect_calls_mem tr ar p hp _ (by simp [connectBranch, h1])
  · intro p hp h1
    exact connect_calls_mem tr ar p hp _ (by simp [connectBranch, h1])
  · intro p hp h1 h2
    have hb : (connectBranch tr p).2 = .error "Unmatched namespace." := by
      simp [connectBranch, h1, h2]
    refine ⟨hb, ?_⟩
    intro hok
    have hq := (connectRun_ok_iff tr ar).mp hok p hp
    rw [hb] at hq
    exact Except.noConfusion hq

/-- Witness for C4 at a concrete range mixing a bound namespace (aptos,
whose branch succeeds) with an unbound one (cosmos): the call rejects. -/
theorem C4_witness :
    ((connect sampleTr [("aptos", { chainIds := none }), ("cosmos", { chainIds := none })]).2 = .ok () ↔
      ∀ p ∈ [("aptos", ({ chainIds := none } : AuthEntry)), ("cosmos", { chainIds := none })],
        (connectBranch sampleTr p).2 = .ok ()) ∧
    (∀ p ∈ [("aptos", ({ chainIds := none } : AuthEntry)), ("cosmos", { chainIds := none })],
      p.1 = "aptos" →
      NativeCall.aptosConnect ∈
        (connect sampleTr [("aptos", { chainIds := none }), ("cosmos", { chainIds := none })]).1) ∧
    (∀ p ∈ [("aptos", ({ chainIds := none } : AuthEntry)), ("cosmos", { chainIds := none })],
      p.1 = "sui" →
      NativeCall.suiConnect ∈
        (connect sampleTr [("aptos", { chainIds := none }), ("cosmos", { chainIds := none })]).1) ∧
    (∀ p ∈ [("aptos", ({ chainIds := none } : AuthEntry)), ("cosmos", { chainIds := none })],
      p.1 ≠ "aptos" → p.1 ≠ "sui" →
      (connectBranch sampleTr p).2 = .error "Unmatched namespace." ∧
      (connect sampleTr [("aptos", { chainIds := none }), ("cosmos", { chainIds := none })]).2 ≠ .ok ()) :=
  C4_connect_spec sampleTr [("aptos", { chainIds := none }), ("cosmos", { chainIds := none })]

/-- Looking up in a map after `set`: the set key yields the new value,
every other key is unchanged. -/
theorem alLookup_alSet {α β : Type} [DecidableEq α] (l : List (α × β)) (a c : α) (b : β) :
    alLookup (alSet l a b) c = if a = c then some b else alLookup l c := by
  induction l with
  | nil => simp [alSet, alLookup]
  | cons q rest ih =>
    obtain ⟨k, v⟩ := q
    by_cases hk : k = a
    · subst hk
      simp only [alSet, if_pos rfl, alLookup]
      by_cases hc : k = c
      · simp [hc]
      · simp [hc]
    · simp only [alSet, if_neg hk, alLookup]
      by_cases hc : k = c
      · have hac : ¬ a = c := fun h => hk (hc.trans h.symm)
        simp [hc, hac]
      · simp only [if_neg hc, ih]

/-- A successful map lookup exhibits a member of the map. -/
theorem alLookup_mem {α β : Type} [DecidableEq α] (l : List (α × β)) (a : α) (b : β)
    (h : alLookup l a = some b) : (a, b) ∈ l := by
  induction l with
  | nil => simp [alLookup] at h
  | cons q rest ih =>
    obtain ⟨k, v⟩ := q
    by_cases hk : k = a
    · subst hk
      rw [alLookup, if_pos rfl] at h
      have hv := Option.some.inj h
      subst hv
      exact List.mem_cons_self _ _
    · rw [alLookup, if_neg hk] at h
      exact List.mem_cons_of_mem _ (ih h)

/-- The stored handles after `on(t, L)`: the pair `(t, L)` now maps to the
fresh handle, every other pair is unchanged. -/
theorem lookup2_on (s : EventState) (t : String) (L : Nat) (ty : String) (l : Nat) :
    (s.on t L).lookup2 ty l =
      if ty = t ∧ l = L then some s.nextHandle else s.lookup2 ty l := by
  unfold EventState.on EventState.lookup2
  simp only [alLookup_alSet]
  by_cases hty : t = ty
  · subst hty
    rw [if_pos rfl, Option.some_bind, alLookup_alSet]
    by_cases hl : L = l
    · subst hl
      rw [if_pos rfl, if_pos ⟨rfl, rfl⟩]
    · rw [if_neg hl, if_neg (fun h => hl h.2.symm)]
      cases halem : alLookup s.eventMap t with
      | none => simp [halem, alLookup]
      | some m => simp [halem]
  · rw [if_neg hty, if_neg (fun h => hty h.1.symm)]

/-- `on` preserves the freshness invariant of stored handles. -/
theorem goodL_on (s : EventState) (t : String) (L : Nat) (h : goodL s) :
    goodL (s.on t L) := by
  intro ty l hh hlook
  rw [lookup2_on] at hlook
  show hh < s.nextHandle + 1
  by_cases hc : ty = t ∧ l = L
  · rw [if_pos hc] at hlook
    have := Option.some.inj hlook
    omega
  · rw [if_neg hc] at hlook
    exact Nat.lt_succ_of_lt (h ty l hh hlook)

/-- `on` keeps a handle below the counter out of the stored map. -/
theorem avoidsL_on (s : EventState) (h1 : Nat) (t : String) (L : Nat)
    (hlt : h1 < s.nextHandle) (hav : avoidsL s h1) : avoidsL (s.on t L) h1 := by
  intro ty l
  rw [lookup2_on]
  by_cases hc : ty = t ∧ l = L
  · rw [if_pos hc]
    intro hcon
    have := Option.some.inj hcon
    omega
  · rw [if_neg hc]
    exact hav ty l

/-- `off` leaves the event-bridge state unchanged (the source never removes
the entry). -/
theorem off_fst (s : EventState) (t : String) (l : Nat) : (s.off t l).1 = s := by
  unfold EventState.off
  cases h : s.lookup2 t l <;> simp

/-- Once a handle is absent from the stored map and below the counter, no
sequence of operations ever passes it to the native unsubscribe. -/
theorem runEvents_avoids (h1 : Nat) (ops : List EventOp) (s : EventState)
    (hgood : goodL s) (hlt : h1 < s.nextHandle) (hav : avoidsL s h1) :
    h1 ∉ (runEvents s ops).2 := by
  induction ops generalizing s with
  | nil => simp [runEvents]
  | cons op rest ih =>
    simp only [runEvents, List.mem_append]
    intro hmem
    rcases hmem with h | h
    · cases op with
      | onOp t l => simp [stepEvent] at h
      | offOp t l =>
        simp only [stepEvent, EventState.off] at h
        cases hlook : s.lookup2 t l with
        | none => rw [hlook] at h; simp at h
        | some ev =>
          rw [hlook] at h
          simp only [List.mem_singleton] at h
          subst h
          exact hav t l hlook
    · cases op with
      | onOp t l =>
        exact ih (s.on t l) (goodL_on s t l hgood) (Nat.lt_succ_of_lt hlt)
          (avoidsL_on s h1 t l hlt hav) h
      | offOp t l =>
        rw [stepEvent, off_fst] at h
        exact ih s hgood hlt hav h

/-- The boolean freshness check implies the lookup-level invariant. -/
theorem goodStateB_goodL (s : EventState) (h : goodStateB s = true) : goodL s := by
  intro ty l hh hlook
  unfold EventState.lookup2 at hlook
  cases hm : alLookup s.eventMap ty with
  | none => rw [hm] at hlook; simp at hlook
  | some m =>
    rw [hm] at hlook
    simp only [Option.some_bind] at hlook
    have h1 := alLookup_mem _ _ _ hm
    have h2 := alLookup_mem _ _ _ hlook
    unfold goodStateB at h
    rw [List.all_eq_true] at h
    have h3 := h _ h1
    rw [List.all_eq_true] at h3
    have h4 := h3 _ h2
    simpa using h4

/-- C10: calling `on(t, L)` a second time without an intervening `off`
overwrites the stored native handle for `(t, L)` with the second
registration's handle; the first handle is no longer stored, and no
subsequent sequence of operations ever passes it to the native
unsubscribe. -/
theorem C10_on_overwrites (s₀ : EventState) (t : String) (L : Nat)
    (ops : List EventOp) (h₀ : goodStateB s₀ = true) :
    ((s₀.on t L).on t L).lookup2 t L = some (s₀.nextHandle + 1) ∧
    s₀.nextHandle + 1 ≠ s₀.nextHandle ∧
    ((s₀.on t L).on t L).lookup2 t L ≠ some s₀.nextHandle ∧
    s₀.nextHandle ∉ (runEvents ((s₀.on t L).on t L) ops).2 := by
  have hgood₀ := goodStateB_goodL s₀ h₀
  have hl : ((s₀.on t L).on t L).lookup2 t L = some (s₀.nextHandle + 1) := by
    rw [lookup2_on, if_pos ⟨rfl, rfl⟩]
    rfl
  refine ⟨hl, by omega, ?_, ?_⟩
  · rw [hl]
    intro hcon
    have := Option.some.inj hcon
    omega
  · apply runEvents_avoids
    · exact goodL_on _ _ _ (goodL_on _ _ _ hgood₀)
    · show s₀.nextHandle < s₀.nextHandle + 1 + 1
      omega
    · intro ty l
      rw [lookup2_on, lookup2_on]
      by_cases hc : ty = t ∧ l = L
      · rw [if_pos hc]
        intro hcon
        have h2 : s₀.nextHandle + 1 = s₀.nextHandle := Option.some.inj hcon
        omega
      · rw [if_neg hc, if_neg hc]
        intro hcon
        have := hgood₀ ty l _ hcon
        omega

/-- Witness for C10 from the empty bridge, with further operations after
the double registration. -/
theorem C10_witness :
    ((EventState.empty.on "accountChanged" 0).on "accountChanged" 0).lookup2 "accountChanged" 0 =
      some (EventState.empty.nextHandle + 1) ∧
    EventState.empty.nextHandle + 1 ≠ EventState.empty.nextHandle ∧
    ((EventState.empty.on "accountChanged" 0).on "accountChanged" 0).lookup2 "accountChanged" 0 ≠
      some EventState.empty.nextHandle ∧
    EventState.empty.nextHandle ∉
      (runEvents ((EventState.empty.on "accountChanged" 0).on "accountChanged" 0)
        [EventOp.offOp "accountChanged" 0, EventOp.onOp "chainChanged" 1,
         EventOp.offOp "accountChanged" 0]).2 :=
  C10_on_overwrites EventState.empty "accountChanged" 0
    [EventOp.offOp "accountChanged" 0, EventOp.onOp "chainChanged" 1,
     EventOp.offOp "accountChanged" 0] (by decide)

/-- C1 (code bug): after `on("accountChanged", L)`, the first `off` issues
the native unsubscribe once with the registered handle, but—because the
source's `off` never removes the stored entry—a second `off` issues the
native unsubscribe again with the same handle instead of being a no-op. -/
theorem C1_second_off_not_noop :
    (runEvents (EventState.empty.on "accountChanged" 0)
      [EventOp.offOp "accountChanged" 0]).2 = [0] ∧
    (runEvents (EventState.empty.on "accountChanged" 0)
      [EventOp.offOp "accountChanged" 0, EventOp.offOp "accountChanged" 0]).2 = [0, 0] := by
  exact ⟨rfl, rfl⟩

/-- Sequencing two account branches resolves exactly when both resolve,
flattening the results in order. -/
theorem combineAcc_ok (a b : Except String (List WalletAccount))
    (acc : List WalletAccount) :
    combineAcc a b = .ok acc ↔
      ∃ xs ys, a = .ok xs ∧ b = .ok ys ∧ acc = xs ++ ys := by
  cases a <;> cases b <;> simp [combineAcc]
  tauto

/-- Account-branch sequencing is associative. -/
theorem combineAcc_assoc (a b c : Except String (List WalletAccount)) :
    combineAcc (combineAcc a b) c = combineAcc a (combineAcc b c) := by
  cases a <;> cases b <;> cases c <;> simp [combineAcc]

/-- The native calls of `getAccounts` over a split range. -/
theorem getAccountsRun_append_fst (tr : Cosmostation) (l₁ l₂ : AuthRange) :
    (getAccountsRun tr (l₁ ++ l₂)).1 =
      (getAccountsRun tr l₁).1 ++ (getAccountsRun tr l₂).1 := by
  induction l₁ with
  | nil => simp [getAccountsRun]
  | cons p rest ih => simp [getAccountsRun, ih]

/-- The outcome of `getAccounts` over a split range. -/
theorem getAccountsRun_append_snd (tr : Cosmostation) (l₁ l₂ : AuthRange) :
    (getAccountsRun tr (l₁ ++ l₂)).2 =
      combineAcc (getAccountsRun tr l₁).2 (getAccountsRun tr l₂).2 := by
  induction l₁ with
  | nil =>
    cases h : (getAccountsRun tr l₂).2 <;> simp [getAccountsRun, combineAcc, h]
  | cons p rest ih => simp [getAccountsRun, ih, combineAcc_assoc]

/-- The cosmos branch with explicit chain ids: one `cos_requestAccount`
call and one normalized account per chain id, in order. -/
theorem getAccountsBranch_cosmos_some (tr : Cosmostation) (cids : List String) :
    getAccountsBranch tr ("cosmos", { chainIds := some cids }) =
      (cids.map (fun cid => NativeCall.cosRequestAccount cid),
       .ok (cids.map (cosmosWalletAccount tr))) := by
  simp [getAccountsBranch]

/-- The cosmos branch without chain ids rejects before any native call. -/
theorem getAccountsBranch_cosmos_none (tr : Cosmostation) :
    getAccountsBranch tr ("cosmos", { chainIds := none }) =
      ([], .error "No chainIds provided.") := by
  simp [getAccountsBranch]

/-- A non-cosmos branch never produces a cosmos-namespace account. -/
theorem getAccountsBranch_ns_acct (tr : Cosmostation) (p : String × AuthEntry)
    (hp : p.1 ≠ "cosmos") (xs : List WalletAccount)
    (h : (getAccountsBranch tr p).2 = .ok xs) :
    xs.filter isCosmosAcct = [] := by
  rw [getAccountsBranch, if_neg hp] at h
  split_ifs at h with h1 h2 h3
  all_goals simp only [Prod.snd] at h
  · have hx := Except.ok.inj h
    subst hx
    rw [List.filter_eq_nil_iff]
    intro a ha
    obtain ⟨x, _, rfl⟩ := List.mem_map.mp ha
    simp [ethWalletAccount, isCosmosAcct]
  · have hx := Except.ok.inj h
    subst hx
    simp [aptosWalletAccount, isCosmosAcct]
  · have hx := Except.ok.inj h
    subst hx
    rw [List.filter_eq_nil_iff]
    intro a ha
    obtain ⟨x, _, rfl⟩ := List.mem_map.mp ha
    simp [suiWalletAccount, isCosmosAcct]

/-- A range without a cosmos entry never produces a cosmos-namespace
account. -/
theorem getAccountsRun_ns_acct (tr : Cosmostation) (l : AuthRange)
    (h : "cosmos" ∉ l.map Prod.fst) (acc : List WalletAccount)
    (hok : (getAccountsRun tr l).2 = .ok acc) :
    acc.filter isCosmosAcct = [] := by
  induction l generalizing acc with
  | nil =>
    simp only [getAccountsRun] at hok
    have := Except.ok.inj hok
    subst this
    rfl
  | cons p rest ih =>
    simp only [getAccountsRun] at hok
    rcases (combineAcc_ok _ _ _).mp hok with ⟨xs, ys, hx, hy, rfl⟩
    have hp : p.1 ≠ "cosmos" := by
      intro hcon
      apply h
      rw [List.map_cons, hcon]
      exact List.mem_cons_self _ _
    have hrest : "cosmos" ∉ rest.map Prod.fst := by
      intro hcon
      apply h
      rw [List.map_cons]
      exact List.mem_cons_of_mem _ hcon
    rw [List.filter_append, getAccountsBranch_ns_acct tr p hp xs hx, ih hrest ys hy]
    rfl

/-- A non-cosmos branch issues no native call to the cosmos entry point. -/
theorem getAccountsBranch_ns_calls (tr : Cosmostation) (p : String × AuthEntry)
    (hp : p.1 ≠ "cosmos") :
    (getAccountsBranch tr p).1.filter NativeCall.isCosmosCall = [] := by
  rw [getAccountsBranch, if_neg hp]
  split_ifs <;> rfl

/-- A range without a cosmos entry issues no native call to the cosmos
entry point of the wallet. -/
theorem getAccountsRun_ns_calls (tr : Cosmostation) (l : AuthRange)
    (h : "cosmos" ∉ l.map Prod.fst) :
    (getAccountsRun tr l).1.filter NativeCall.isCosmosCall = [] := by
  induction l with
  | nil => rfl
  | cons p rest ih =>
    have hp : p.1 ≠ "cosmos" := by
      intro hcon
      apply h
      rw [List.map_cons, hcon]
      exact List.mem_cons_self _ _
    have hrest : "cosmos" ∉ rest.map Prod.fst := by
      intro hcon
      apply h
      rw [List.map_cons]
      exact List.mem_cons_of_mem _ hcon
    simp only [getAccountsRun, List.filter_append,
      getAccountsBranch_ns_calls tr p hp, ih hrest]
    rfl

/-- A branch for a bound non-cosmos namespace always resolves. -/
theorem getAccountsBranch_bound_ok (tr : Cosmostation) (p : String × AuthEntry)
    (h : p.1 = "ethereum" ∨ p.1 = "aptos" ∨ p.1 = "sui") :
    ∃ xs, (getAccountsBranch tr p).2 = .ok xs := by
  rcases h with h | h | h <;> simp [getAccountsBranch, h]

/-- A range of bound non-cosmos namespaces always resolves. -/
theorem getAccountsRun_bound_ok (tr : Cosmostation) (l : AuthRange)
    (h : ∀ p ∈ l, p.1 = "ethereum" ∨ p.1 = "aptos" ∨ p.1 = "sui") :
    ∃ acc, (getAccountsRun tr l).2 = .ok acc := by
  induction l with
  | nil => exact ⟨[], rfl⟩
  | cons p rest ih =>
    obtain ⟨xs, hxs⟩ := getAccountsBranch_bound_ok tr p (h p (List.mem_cons_self _ _))
    obtain ⟨ys, hys⟩ := ih (fun q hq => h q (List.mem_cons_of_mem _ hq))
    exact ⟨xs ++ ys, by simp only [getAccountsRun]; rw [hxs, hys]; rfl⟩

/-- Every account normalized by the cosmos branch is a cosmos account. -/
theorem filter_cosmosWalletAccount (tr : Cosmostation) (cids : List String) :
    (cids.map (cosmosWalletAccount tr)).filter isCosmosAcct =
      cids.map (cosmosWalletAccount tr) := by
  rw [List.filter_eq_self]
  intro a ha
  obtain ⟨c, _, rfl⟩ := List.mem_map.mp ha
  simp [cosmosWalletAccount, isCosmosAcct]

/-- C3: for every authRange whose cosmos entry carries an explicit
chainIds list (and no other cosmos entry), a resolving `getAccounts`
returns exactly one normalized account per cosmos chain id, in the order
of the chainIds list, each with a bech32-encoded address and a hex-encoded
public key. -/
theorem C3_getAccounts_cosmos (tr : Cosmostation) (pre post : AuthRange)
    (cids : List String) (accounts : List WalletAccount)
    (hpre : "cosmos" ∉ pre.map Prod.fst) (hpost : "cosmos" ∉ post.map Prod.fst)
    (hok : (getAccounts tr (pre ++ ("cosmos", { chainIds := some cids }) :: post)).2 =
      .ok accounts) :
    accounts.filter isCosmosAcct = cids.map (cosmosWalletAccount tr) ∧
    ∀ a ∈ accounts.filter isCosmosAcct,
      a.address.encoding = "bech32" ∧ a.publicKey.map Encoded.encoding = some "hex" := by
  rw [getAccounts, getAccountsRun_append_snd] at hok
  simp only [getAccountsRun, getAccountsBranch_cosmos_some] at hok
  rcases (combineAcc_ok _ _ _).mp hok with ⟨xs, yz, hx, hyz, rfl⟩
  rcases (combineAcc_ok _ _ _).mp hyz with ⟨bs, cs, hb, hc, rfl⟩
  have hbs := Except.ok.inj hb
  subst hbs
  have hfilter : (xs ++ (cids.map (cosmosWalletAccount tr) ++ cs)).filter isCosmosAcct =
      cids.map (cosmosWalletAccount tr) := by
    rw [List.filter_append, List.filter_append,
      getAccountsRun_ns_acct tr pre hpre xs hx,
      filter_cosmosWalletAccount,
      getAccountsRun_ns_acct tr post hpost cs hc]
    simp
  refine ⟨hfilter, ?_⟩
  rw [hfilter]
  intro a ha
  obtain ⟨c, _, rfl⟩ := List.mem_map.mp ha
  exact ⟨rfl, rfl⟩

/-- Witness for C3 at a concrete two-chain cosmos range. -/
theorem C3_witness :
    (["cosmoshub-4", "osmosis-1"].map (cosmosWalletAccount sampleTr)).filter isCosmosAcct =
      ["cosmoshub-4", "osmosis-1"].map (cosmosWalletAccount sampleTr) ∧
    ∀ a ∈ (["cosmoshub-4", "osmosis-1"].map (cosmosWalletAccount sampleTr)).filter isCosmosAcct,
      a.address.encoding = "bech32" ∧ a.publicKey.map Encoded.encoding = some "hex" :=
  C3_getAccounts_cosmos sampleTr [] [] ["cosmoshub-4", "osmosis-1"]
    (["cosmoshub-4", "osmosis-1"].map (cosmosWalletAccount sampleTr))
    (by simp) (by simp) rfl

/-- C6: for every authRange whose cosmos entry lacks a chainIds list,
`getAccounts` rejects, issues no native request to the cosmos entry point,
and—when every earlier entry is a bound non-cosmos namespace—the rejection
is exactly `MissingChainIds` (`'No chainIds provided.'`). -/
theorem C6_getAccounts_missing_chainIds (tr : Cosmostation) (pre post : AuthRange)
    (hpre : "cosmos" ∉ pre.map Prod.fst) (hpost : "cosmos" ∉ post.map Prod.fst) :
    exOk (getAccounts tr (pre ++ ("cosmos", { chainIds := none }) :: post)).2 = false ∧
    (getAccounts tr (pre ++ ("cosmos", { chainIds := none }) :: post)).1.filter
      NativeCall.isCosmosCall = [] ∧
    ((∀ p ∈ pre, p.1 = "ethereum" ∨ p.1 = "aptos" ∨ p.1 = "sui") →
      (getAccounts tr (pre ++ ("cosmos", { chainIds := none }) :: post)).2 =
        .error "No chainIds provided.") := by
  have hsnd : (getAccounts tr (pre ++ ("cosmos", { chainIds := none }) :: post)).2 =
      combineAcc (getAccountsRun tr pre).2 (.error "No chainIds provided.") := by
    rw [getAccounts, getAccountsRun_append_snd]
    simp only [getAccountsRun, getAccountsBranch_cosmos_none]
    rfl
  refine ⟨?_, ?_, ?_⟩
  · rw [hsnd]
    cases h : (getAccountsRun tr pre).2 <;> simp [combineAcc, h, exOk]
  · rw [getAccounts, getAccountsRun_append_fst]
    simp only [getAccountsRun, getAccountsBranch_cosmos_none, List.filter_append,
      getAccountsRun_ns_calls tr pre hpre, getAccountsRun_ns_calls tr post hpost]
    rfl
  · intro hb
    obtain ⟨xs, hxs⟩ := getAccountsRun_bound_ok tr pre hb
    rw [hsnd, hxs]
    rfl

/-- Witness for C6 with a bound ethereum entry before the cosmos entry. -/
theorem C6_witness :
    exOk (getAccounts sampleTr ([("ethereum", { chainIds := none })] ++
      ("cosmos", { chainIds := none }) :: [])).2 = false ∧
    (getAccounts sampleTr ([("ethereum", { chainIds := none })] ++
      ("cosmos", { chainIds := none }) :: [])).1.filter NativeCall.isCosmosCall = [] ∧
    ((∀ p ∈ [(("ethereum" : String), ({ chainIds := none } : AuthEntry))],
        p.1 = "ethereum" ∨ p.1 = "aptos" ∨ p.1 = "sui") →
      (getAccounts sampleTr ([("ethereum", { chainIds := none })] ++
        ("cosmos", { chainIds := none }) :: [])).2 = .error "No chainIds provided.") :=
  C6_getAccounts_missing_chainIds sampleTr [("ethereum", { chainIds := none })] []
    (by simp) (by simp)

end CosmosKit
